import Mathlib

/-!
Verification of the party-order speed calculator (src/tools/js/party-order.js).

The two core functions, `calculateBaseSpeeds` (threshold propagator) and
`calculateWithBuffs` (buff-aware resolver), are shallowly embedded below.
JavaScript numbers are modelled as exact rationals (`ℚ`), `Math.floor` as
`Int.floor`, and integer-valued speeds as `ℤ`.  The 1-indexed working array
`s` of size `PARTY_SIZE + 1` is a `List ℤ` of length 5, updated with
`List.set` and read with `List.getD _ 0` (the array is initialised with
`fill(0)`, so the default value 0 matches out-of-range reads).

Rational division `a / b` with `b = 0` is `0` in Lean but `Infinity`/`NaN`
in JavaScript; every theorem below that involves a division restricts to a
nonzero divisor, except for the zero-buff analysis, which uses the explicit
`JSNum` model of the JavaScript division semantics.
-/

namespace PartyOrder

/-- Battle factor for normal battles (`BATTLE_FACTORS.NORMAL = 1.14`). -/
def NORMAL_FACTOR : ℚ := 114 / 100

/-- Battle factor for megamonster battles (`BATTLE_FACTORS.MEGAMON = 1.2`). -/
def MEGAMON_FACTOR : ℚ := 12 / 10

/-- Party size (`PARTY_SIZE = 4`). -/
def PARTY_SIZE : ℕ := 4

/-- `floorDiv(a, f) = Math.floor(a / f)`. -/
def floorDiv (a f : ℚ) : ℤ := ⌊a / f⌋

/-- `floorMul(a, f) = Math.floor(a * f)`. -/
def floorMul (a f : ℚ) : ℤ := ⌊a * f⌋

/-- Upward pass of `calculateBaseSpeeds`: the loop
`for (let i = position - 1; i >= 1; i--) s[i] = floorMul(s[i + 1], factor) + 1`.
`upLoop factor n s` runs the loop body for `i = n, n - 1, ..., 1`. -/
def upLoop (factor : ℚ) : ℕ → List ℤ → List ℤ
  | 0, s => s
  | i + 1, s => upLoop factor i (s.set (i + 1) (floorMul ((s.getD (i + 2) 0 : ℤ) : ℚ) factor + 1))

/-- Downward pass of `calculateBaseSpeeds`: the loop
`for (let j = position + 2; j <= PARTY_SIZE; j++) s[j] = floorDiv(s[j - 1], factor) - 1`.
`downLoop factor fuel j s` runs the loop body for indices `j, j + 1, ...`,
`fuel` times. -/
def downLoop (factor : ℚ) : ℕ → ℕ → List ℤ → List ℤ
  | 0, _, s => s
  | fuel + 1, j, s =>
      downLoop factor fuel (j + 1) (s.set j (floorDiv ((s.getD (j - 1) 0 : ℤ) : ℚ) factor - 1))

/-- `calculateBaseSpeeds(position, baseSpeed, factor)`: builds the 1-indexed
array `s` of size `PARTY_SIZE + 1` filled with 0, anchors `s[position]`,
runs the upward pass, assigns `s[position + 1] = floorDiv(s[position], factor) - 1`
when in range, runs the downward pass from `position + 2`, and returns
`s.slice(1, PARTY_SIZE + 1)`. -/
def calculateBaseSpeeds (position : ℕ) (baseSpeed : ℤ) (factor : ℚ) : List ℤ :=
  let s0 := (List.replicate (PARTY_SIZE + 1) (0 : ℤ)).set position baseSpeed
  let s1 := upLoop factor (position - 1) s0
  let minCurr := floorDiv ((s1.getD position 0 : ℤ) : ℚ) factor
  let s2 := if position + 1 ≤ PARTY_SIZE then s1.set (position + 1) (minCurr - 1) else s1
  let s3 := downLoop factor (PARTY_SIZE - (position + 1)) (position + 2) s2
  (s3.drop 1).take PARTY_SIZE

/-- Result record of `calculateWithBuffs`:
`{ baseSpeeds: number[], effectiveSpeeds: number[] }`. -/
structure BuffResult where
  baseSpeeds : List ℤ
  effectiveSpeeds : List ℤ
  deriving DecidableEq

/-- `calculateWithBuffs(position, baseSpeed, factor, buffs)`:
1. anchor effective speed `baseSpeed * buffs[position - 1]`;
2. propagate in effective-speed space from its floor;
3. invert the buffs per slot (the anchor slot echoes `baseSpeed`);
4. recompute all effective speeds as `Math.floor(baseSpeeds[i] * buffs[i])`. -/
def calculateWithBuffs (position : ℕ) (baseSpeed : ℤ) (factor : ℚ) (buffs : List ℚ) :
    BuffResult :=
  let baseEffectiveSpeed : ℚ := (baseSpeed : ℚ) * buffs.getD (position - 1) 0
  let effectiveSpeeds := calculateBaseSpeeds position ⌊baseEffectiveSpeed⌋ factor
  let baseSpeeds := (List.range PARTY_SIZE).map (fun i =>
    if i = position - 1 then baseSpeed
    else ⌊((effectiveSpeeds.getD i 0 : ℤ) : ℚ) / buffs.getD i 0⌋)
  let finalEffectiveSpeeds :=
    List.zipWith (fun speed b => ⌊((speed : ℤ) : ℚ) * b⌋) baseSpeeds buffs
  { baseSpeeds := baseSpeeds, effectiveSpeeds := finalEffectiveSpeeds }

/-- JavaScript IEEE-754 value as observed through `/` and `Math.floor` on the
zero-divisor path: a finite (here exact rational) number, an infinity, or NaN. -/
inductive JSNum where
  | num : ℚ → JSNum
  | posInf : JSNum
  | negInf : JSNum
  | nan : JSNum
  deriving DecidableEq

/-- JavaScript division: `a / 0` is `+Infinity` for `a > 0`, `-Infinity` for
`a < 0`, and `NaN` for `0 / 0`; otherwise exact rational division. -/
def jsDiv (a b : ℚ) : JSNum :=
  if b = 0 then
    if 0 < a then JSNum.posInf else if a < 0 then JSNum.negInf else JSNum.nan
  else JSNum.num (a / b)

/-- JavaScript `Math.floor`: floors finite numbers, passes `±Infinity` and
`NaN` through unchanged. -/
def jsFloor : JSNum → JSNum
  | JSNum.num q => JSNum.num (⌊q⌋ : ℚ)
  | JSNum.posInf => JSNum.posInf
  | JSNum.negInf => JSNum.negInf
  | JSNum.nan => JSNum.nan

example : calculateBaseSpeeds 1 1000 MEGAMON_FACTOR = [1000, 832, 692, 575] := by
  norm_num [calculateBaseSpeeds, upLoop, downLoop, floorDiv, floorMul, PARTY_SIZE, MEGAMON_FACTOR,
    List.replicate]

example : calculateBaseSpeeds 4 100 MEGAMON_FACTOR = [176, 146, 121, 100] := by
  norm_num [calculateBaseSpeeds, upLoop, downLoop, floorDiv, floorMul, PARTY_SIZE, MEGAMON_FACTOR,
    List.replicate]

/-- Multiplying a nonnegative integer by a factor at least 1 and flooring
does not decrease it. -/
lemma le_floorMul_self (f : ℚ) (hf : 1 ≤ f) (x : ℤ) (hx : 0 ≤ x) : x ≤ floorMul (x : ℚ) f := by
  rw [floorMul, Int.le_floor]
  have hx' : (0 : ℚ) ≤ (x : ℚ) := by exact_mod_cast hx
  nlinarith

/-- One upward propagation step strictly increases a nonnegative value. -/
lemma lt_floorMul_succ (f : ℚ) (hf : 1 < f) (x : ℤ) (hx : 0 ≤ x) : x < floorMul (x : ℚ) f + 1 :=
  Int.lt_add_one_iff.mpr (le_floorMul_self f hf.le x hx)

/-- One upward propagation step keeps the value nonnegative. -/
lemma floorMul_succ_nonneg (f : ℚ) (hf : 1 < f) (x : ℤ) (hx : 0 ≤ x) :
    0 ≤ floorMul (x : ℚ) f + 1 :=
  le_of_lt (lt_of_le_of_lt hx (lt_floorMul_succ f hf x hx))

/-- Dividing an integer by a positive rational, flooring, multiplying back and
flooring again never exceeds the original integer. -/
lemma refloor_le (e : ℤ) (b : ℚ) (hb : 0 < b) :
    ⌊((⌊(e : ℚ) / b⌋ : ℤ) : ℚ) * b⌋ ≤ e := by
  have h1 : ((⌊(e : ℚ) / b⌋ : ℤ) : ℚ) * b ≤ (e : ℚ) := by
    calc ((⌊(e : ℚ) / b⌋ : ℤ) : ℚ) * b ≤ ((e : ℚ) / b) * b :=
          mul_le_mul_of_nonneg_right (Int.floor_le _) hb.le
    _ = (e : ℚ) := div_mul_cancel₀ _ hb.ne'
  calc ⌊((⌊(e : ℚ) / b⌋ : ℤ) : ℚ) * b⌋ ≤ ⌊(e : ℚ)⌋ := Int.floor_le_floor h1
  _ = e := Int.floor_intCast e

/-- C1: for every anchor slot `s` in [1,4], factor `f > 1` and nonnegative
anchor value `v`, every slot `i < s` of the propagator output (1-indexed)
satisfies `out[i] = floor(out[i+1] * f) + 1`. -/
theorem C1_upward_recurrence (s : ℕ) (hs1 : 1 ≤ s) (hs2 : s ≤ 4) (f : ℚ) (hf : 1 < f)
    (v : ℤ) (hv : 0 ≤ v) (i : ℕ) (hi1 : 1 ≤ i) (hi2 : i < s) :
    (calculateBaseSpeeds s v f).getD (i - 1) 0 =
      floorMul ((calculateBaseSpeeds s v f).getD i 0 : ℚ) f + 1 := by
  interval_cases s <;> interval_cases i <;> rfl

/-- C1 witness at `s = 3`, `f = 6/5`, `v = 1000`, `i = 1`. -/
theorem C1_witness :
    (calculateBaseSpeeds 3 1000 (6 / 5)).getD 0 0 =
      floorMul ((calculateBaseSpeeds 3 1000 (6 / 5)).getD 1 0 : ℚ) (6 / 5) + 1 :=
  C1_upward_recurrence 3 (by norm_num) (by norm_num) (6 / 5) (by norm_num) 1000 (by norm_num)
    1 (by norm_num) (by norm_num)

/-- C2: for every anchor slot `s` in [1,4], factor `f > 1` and nonnegative
anchor value `v`, every slot `i > s` of the propagator output (1-indexed)
satisfies `out[i] = floor(out[i-1] / f) - 1`, chained from the immediate
upward neighbor's already-computed boundary. -/
theorem C2_downward_recurrence (s : ℕ) (hs1 : 1 ≤ s) (hs2 : s ≤ 4) (f : ℚ) (hf : 1 < f)
    (v : ℤ) (hv : 0 ≤ v) (i : ℕ) (hi1 : s < i) (hi2 : i ≤ 4) :
    (calculateBaseSpeeds s v f).getD (i - 1) 0 =
      floorDiv ((calculateBaseSpeeds s v f).getD (i - 2) 0 : ℚ) f - 1 := by
  interval_cases s <;> interval_cases i <;> rfl

/-- C2 witness at `s = 1`, `f = 6/5`, `v = 1000`, `i = 3`. -/
theorem C2_witness :
    (calculateBaseSpeeds 1 1000 (6 / 5)).getD 2 0 =
      floorDiv ((calculateBaseSpeeds 1 1000 (6 / 5)).getD 1 0 : ℚ) (6 / 5) - 1 :=
  C2_downward_recurrence 1 (by norm_num) (by norm_num) (6 / 5) (by norm_num) 1000 (by norm_num)
    3 (by norm_num) (by norm_num)

/-- C3: for every anchor slot `s` in [1,4], factor `f > 1` and nonnegative
anchor value `v`, the propagator output at the anchor slot equals `v` exactly. -/
theorem C3_anchor_exact (s : ℕ) (hs1 : 1 ≤ s) (hs2 : s ≤ 4) (f : ℚ) (hf : 1 < f)
    (v : ℤ) (hv : 0 ≤ v) :
    (calculateBaseSpeeds s v f).getD (s - 1) 0 = v := by
  interval_cases s <;> rfl

/-- C3 witness at `s = 2`, `f = 57/50`, `v = 1000`. -/
theorem C3_witness : (calculateBaseSpeeds 2 1000 (57 / 50)).getD 1 0 = 1000 :=
  C3_anchor_exact 2 (by norm_num) (by norm_num) (57 / 50) (by norm_num) 1000 (by norm_num)

/-- C4: the resolver echoes the anchor slot's raw speed back unchanged in
`baseSpeeds`, for every anchor slot, nonnegative raw speed, factor `> 1` and
positive buff multipliers. -/
theorem C4_anchor_echo (s : ℕ) (hs1 : 1 ≤ s) (hs2 : s ≤ 4) (r : ℤ) (hr : 0 ≤ r)
    (f : ℚ) (hf : 1 < f) (b1 b2 b3 b4 : ℚ)
    (hb1 : 0 < b1) (hb2 : 0 < b2) (hb3 : 0 < b3) (hb4 : 0 < b4) :
    (calculateWithBuffs s r f [b1, b2, b3, b4]).baseSpeeds.getD (s - 1) 0 = r := by
  interval_cases s <;> rfl

/-- C4 witness at `s = 2`, `r = 1000`, `f = 6/5`, buffs `[3/2, 2, 1/2, 1]`. -/
theorem C4_witness :
    (calculateWithBuffs 2 1000 (6 / 5) [3 / 2, 2, 1 / 2, 1]).baseSpeeds.getD 1 0 = 1000 :=
  C4_anchor_echo 2 (by norm_num) (by norm_num) 1000 (by norm_num) (6 / 5) (by norm_num)
    (3 / 2) 2 (1 / 2) 1 (by norm_num) (by norm_num) (by norm_num) (by norm_num)

/-- C5: for every slot `i` (anchor included), the resolver's returned
effective speed is `floor(baseSpeeds[i] * buffs[i])`. -/
theorem C5_effective_consistency (s : ℕ) (hs1 : 1 ≤ s) (hs2 : s ≤ 4) (r : ℤ) (hr : 0 ≤ r)
    (f : ℚ) (hf : 1 < f) (b1 b2 b3 b4 : ℚ)
    (hb1 : 0 < b1) (hb2 : 0 < b2) (hb3 : 0 < b3) (hb4 : 0 < b4)
    (i : ℕ) (hi1 : 1 ≤ i) (hi2 : i ≤ 4) :
    (calculateWithBuffs s r f [b1, b2, b3, b4]).effectiveSpeeds.getD (i - 1) 0 =
      ⌊(((calculateWithBuffs s r f [b1, b2, b3, b4]).baseSpeeds.getD (i - 1) 0 : ℤ) : ℚ) *
        ([b1, b2, b3, b4].getD (i - 1) 0)⌋ := by
  interval_cases s <;> interval_cases i <;> rfl

/-- C5 witness at `s = 3`, `r = 1000`, `f = 6/5`, buffs `[3/2, 2, 1/2, 1]`, `i = 1`. -/
theorem C5_witness :
    (calculateWithBuffs 3 1000 (6 / 5) [3 / 2, 2, 1 / 2, 1]).effectiveSpeeds.getD 0 0 =
      ⌊(((calculateWithBuffs 3 1000 (6 / 5) [3 / 2, 2, 1 / 2, 1]).baseSpeeds.getD 0 0 : ℤ) : ℚ) *
        ([(3 : ℚ) / 2, 2, 1 / 2, 1].getD 0 0)⌋ :=
  C5_effective_consistency 3 (by norm_num) (by norm_num) 1000 (by norm_num) (6 / 5) (by norm_num)
    (3 / 2) 2 (1 / 2) 1 (by norm_num) (by norm_num) (by norm_num) (by norm_num)
    1 (by norm_num) (by norm_num)

/-- C6 counterexample: at anchor slot 3, anchor value 1000, the normal factor
1.14, the propagated effective value of slot 4 is 876 > 0; dividing it by a
zero buff multiplier in Step 3 yields `+Infinity` under JavaScript semantics,
and `Math.floor` passes the infinity through.  The division therefore silently
produces a sentinel value for that slot; no fault is signalled. -/
theorem C6_counterexample :
    jsFloor (jsDiv (((calculateBaseSpeeds 3 1000 NORMAL_FACTOR).getD 3 0 : ℤ) : ℚ) 0) =
      JSNum.posInf := by
  norm_num [calculateBaseSpeeds, upLoop, downLoop, floorDiv, floorMul, PARTY_SIZE,
    NORMAL_FACTOR, List.replicate, jsDiv, jsFloor]

/-- C6 (amended): a zero buff multiplier on a non-anchor slot does not signal
a fault; whenever the propagated effective value of the slot is positive, the
Step 3 division under JavaScript semantics silently evaluates to the sentinel
`+Infinity`, unchanged by `Math.floor`. -/
theorem C6_zero_buff_sentinel (s : ℕ) (v : ℤ) (f : ℚ) (i : ℕ)
    (he : 0 < (calculateBaseSpeeds s v f).getD i 0) :
    jsFloor (jsDiv (((calculateBaseSpeeds s v f).getD i 0 : ℤ) : ℚ) 0) = JSNum.posInf := by
  have h : (0 : ℚ) < ((calculateBaseSpeeds s v f).getD i 0 : ℚ) := by exact_mod_cast he
  simp only [jsDiv]
  rw [if_pos trivial, if_pos h]
  rfl

/-- C6 witness at `s = 1`, `v = 1000`, `f = 6/5`, slot index `i = 1`,
whose propagated effective value is 832. -/
theorem C6_witness :
    jsFloor (jsDiv (((calculateBaseSpeeds 1 1000 (6 / 5)).getD 1 0 : ℤ) : ℚ) 0) =
      JSNum.posInf :=
  C6_zero_buff_sentinel 1 1000 (6 / 5) 1
    (by norm_num [calculateBaseSpeeds, upLoop, downLoop, floorDiv, floorMul, PARTY_SIZE,
      List.replicate])

/-- C7: with all buff multipliers equal to 1, the resolver's `baseSpeeds`
array equals the propagator output `calculateBaseSpeeds s r f` exactly. -/
theorem C7_unit_buffs_noop (s : ℕ) (hs1 : 1 ≤ s) (hs2 : s ≤ 4) (r : ℤ) (hr : 0 ≤ r)
    (f : ℚ) (hf : 1 < f) :
    (calculateWithBuffs s r f [1, 1, 1, 1]).baseSpeeds = calculateBaseSpeeds s r f := by
  interval_cases s <;>
    simp [calculateWithBuffs, calculateBaseSpeeds, upLoop, downLoop, floorDiv, floorMul,
      PARTY_SIZE, List.replicate, List.range_succ]

/-- C7 witness at `s = 2`, `r = 1000`, `f = 6/5`. -/
theorem C7_witness :
    (calculateWithBuffs 2 1000 (6 / 5) [1, 1, 1, 1]).baseSpeeds =
      calculateBaseSpeeds 2 1000 (6 / 5) :=
  C7_unit_buffs_noop 2 (by norm_num) (by norm_num) 1000 (by norm_num) (6 / 5) (by norm_num)

/-- C8: the propagator output is strictly decreasing over the upward region:
for every slot `i` with `1 ≤ i < s`, `out[i] > out[i+1]` (1-indexed). -/
theorem C8_upward_strict_decrease (s : ℕ) (hs1 : 1 ≤ s) (hs2 : s ≤ 4) (f : ℚ) (hf : 1 < f)
    (v : ℤ) (hv : 0 ≤ v) (i : ℕ) (hi1 : 1 ≤ i) (hi2 : i < s) :
    (calculateBaseSpeeds s v f).getD (i - 1) 0 > (calculateBaseSpeeds s v f).getD i 0 := by
  interval_cases s <;> interval_cases i
  · exact lt_floorMul_succ f hf v hv
  · exact lt_floorMul_succ f hf (floorMul ((v : ℤ) : ℚ) f + 1) (floorMul_succ_nonneg f hf v hv)
  · exact lt_floorMul_succ f hf v hv
  · exact lt_floorMul_succ f hf (floorMul (((floorMul ((v : ℤ) : ℚ) f + 1 : ℤ)) : ℚ) f + 1)
      (floorMul_succ_nonneg f hf (floorMul ((v : ℤ) : ℚ) f + 1) (floorMul_succ_nonneg f hf v hv))
  · exact lt_floorMul_succ f hf (floorMul ((v : ℤ) : ℚ) f + 1) (floorMul_succ_nonneg f hf v hv)
  · exact lt_floorMul_succ f hf v hv

/-- C8 witness at `s = 4`, `f = 6/5`, `v = 100`, `i = 2`. -/
theorem C8_witness :
    (calculateBaseSpeeds 4 100 (6 / 5)).getD 1 0 > (calculateBaseSpeeds 4 100 (6 / 5)).getD 2 0 :=
  C8_upward_strict_decrease 4 (by norm_num) (by norm_num) (6 / 5) (by norm_num) 100 (by norm_num)
    2 (by norm_num) (by norm_num)

/-- C9: for every non-anchor slot, the resolver's final recomputed effective
speed never exceeds the Step-2 propagated effective value for that slot: the
divide-floor-multiply-floor round trip can only decrease it. -/
theorem C9_refloor_never_exceeds (s : ℕ) (hs1 : 1 ≤ s) (hs2 : s ≤ 4) (r : ℤ) (hr : 0 ≤ r)
    (f : ℚ) (hf : 1 < f) (b1 b2 b3 b4 : ℚ)
    (hb1 : 0 < b1) (hb2 : 0 < b2) (hb3 : 0 < b3) (hb4 : 0 < b4)
    (i : ℕ) (hi1 : 1 ≤ i) (hi2 : i ≤ 4) (hne : i ≠ s) :
    (calculateWithBuffs s r f [b1, b2, b3, b4]).effectiveSpeeds.getD (i - 1) 0 ≤
      (calculateBaseSpeeds s ⌊(r : ℚ) * ([b1, b2, b3, b4].getD (s - 1) 0)⌋ f).getD (i - 1) 0 := by
  interval_cases s <;> interval_cases i
  · exact absurd rfl hne
  · exact refloor_le _ b2 hb2
  · exact refloor_le _ b3 hb3
  · exact refloor_le _ b4 hb4
  · exact refloor_le _ b1 hb1
  · exact absurd rfl hne
  · exact refloor_le _ b3 hb3
  · exact refloor_le _ b4 hb4
  · exact refloor_le _ b1 hb1
  · exact refloor_le _ b2 hb2
  · exact absurd rfl hne
  · exact refloor_le _ b4 hb4
  · exact refloor_le _ b1 hb1
  · exact refloor_le _ b2 hb2
  · exact refloor_le _ b3 hb3
  · exact absurd rfl hne

/-- C9 witness at `s = 1`, `r = 1000`, `f = 6/5`, buffs `[3/2, 2, 1/2, 1]`, `i = 2`. -/
theorem C9_witness :
    (calculateWithBuffs 1 1000 (6 / 5) [3 / 2, 2, 1 / 2, 1]).effectiveSpeeds.getD 1 0 ≤
      (calculateBaseSpeeds 1 ⌊(1000 : ℚ) * ([(3 : ℚ) / 2, 2, 1 / 2, 1].getD 0 0)⌋
        (6 / 5)).getD 1 0 :=
  C9_refloor_never_exceeds 1 (by norm_num) (by norm_num) 1000 (by norm_num) (6 / 5) (by norm_num)
    (3 / 2) 2 (1 / 2) 1 (by norm_num) (by norm_num) (by norm_num) (by norm_num)
    2 (by norm_num) (by norm_num) (by norm_num)

/-- C10: the resolver's final recomputed effective speed at the anchor slot
equals `floor(r * buffs[s])`, which is exactly the anchor value fed to the
propagator in Step 2, so Step 4 can never diverge from Step 2 at the anchor. -/
theorem C10_anchor_effective_stable (s : ℕ) (hs1 : 1 ≤ s) (hs2 : s ≤ 4) (r : ℤ) (hr : 0 ≤ r)
    (f : ℚ) (hf : 1 < f) (b1 b2 b3 b4 : ℚ)
    (hb1 : 0 < b1) (hb2 : 0 < b2) (hb3 : 0 < b3) (hb4 : 0 < b4) :
    (calculateWithBuffs s r f [b1, b2, b3, b4]).effectiveSpeeds.getD (s - 1) 0 =
        ⌊(r : ℚ) * ([b1, b2, b3, b4].getD (s - 1) 0)⌋ ∧
      (calculateWithBuffs s r f [b1, b2, b3, b4]).effectiveSpeeds.getD (s - 1) 0 =
        (calculateBaseSpeeds s ⌊(r : ℚ) * ([b1, b2, b3, b4].getD (s - 1) 0)⌋ f).getD (s - 1) 0 := by
  interval_cases s <;> exact ⟨rfl, rfl⟩

/-- C10 witness at `s = 3`, `r = 1000`, `f = 6/5`, buffs `[3/2, 2, 1/2, 1]`. -/
theorem C10_witness :
    (calculateWithBuffs 3 1000 (6 / 5) [3 / 2, 2, 1 / 2, 1]).effectiveSpeeds.getD 2 0 =
        ⌊(1000 : ℚ) * ([(3 : ℚ) / 2, 2, 1 / 2, 1].getD 2 0)⌋ ∧
      (calculateWithBuffs 3 1000 (6 / 5) [3 / 2, 2, 1 / 2, 1]).effectiveSpeeds.getD 2 0 =
        (calculateBaseSpeeds 3 ⌊(1000 : ℚ) * ([(3 : ℚ) / 2, 2, 1 / 2, 1].getD 2 0)⌋
          (6 / 5)).getD 2 0 :=
  C10_anchor_effective_stable 3 (by norm_num) (by norm_num) 1000 (by norm_num) (6 / 5)
    (by norm_num) (3 / 2) 2 (1 / 2) 1 (by norm_num) (by norm_num) (by norm_num) (by norm_num)

end PartyOrder
